import Mathlib

/-!
Shallow embedding of `pyulog/core.py` (the ULog binary log parser) and a
verification of its specification claims.

Conventions of the embedding:
* a byte stream is a `List Nat` (each element is a byte value);
* Python `bytes`/`str` values produced by `_parse_string` are Lean `String`s
  obtained by mapping each byte to the character with that code point;
* Python dictionaries are association lists in insertion order with
  last-writer-wins update (`dictInsert` / `dictGet`), matching CPython
  dict semantics (an updated key keeps its original position, a new key is
  appended, `popitem` pops from the end);
* Python exceptions are modelled by the `PyErr` error channel: the data
  phase of the parser catches exactly `struct.error`, every other error
  propagates out of the parse;
* numpy facts used: a structured dtype built from a list of
  (name, scalar-type) pairs is packed, so its itemsize is the sum of the
  field widths; `np.dtype` raises `ValueError` when a field name occurs
  twice; `np.frombuffer` raises `ValueError` when the buffer length is not
  a positive multiple of the dtype itemsize.
-/

set_option maxRecDepth 65536

namespace PyUlog

/-- Python exception kinds relevant to `core.py`.  `structErr` is
`struct.error`; `keyErr` covers `KeyError` (unknown composite type name)
and the `RecursionError` of a cyclic schema, both of which are uncaught;
`indexErr` is `IndexError`; `valueErr` is `ValueError` (numpy dtype and
frombuffer failures, bad `int()` strings); `osErr` is the `OSError` of a
seek to a negative position. -/
inductive PyErr where
  | structErr
  | keyErr
  | indexErr
  | valueErr
  | osErr
deriving DecidableEq

/-- `_parse_string`: bytes to text.  Each byte becomes the character with
that code point (the source decodes as ASCII). -/
def _parse_string (cstr : List Nat) : String :=
  String.mk (cstr.map Char.ofNat)

/-- Little-endian unsigned integer value of a byte list, as used by the
`struct.Struct('<H')`, `('<Q')`, ... unpackers. -/
def leUInt (l : List Nat) : Nat :=
  l.foldr (fun b acc => b + 256 * acc) 0

/-- Python dict lookup on an association list. -/
def dictGet {K V : Type} [BEq K] (l : List (K × V)) (k : K) : Option V :=
  l.lookup k

/-- Python dict assignment `d[k] = v`: update in place if the key exists,
append otherwise. -/
def dictInsert {K V : Type} [BEq K] (l : List (K × V)) (k : K) (v : V) :
    List (K × V) :=
  if (l.lookup k).isSome then
    l.map (fun p => if p.1 == k then (k, v) else p)
  else l ++ [(k, v)]

/-- Python `set.add` on a duplicate-free list. -/
def setAdd (l : List Nat) (x : Nat) : List Nat :=
  if x ∈ l then l else l ++ [x]

/-- `ULog.HEADER_BYTES`: the 7-byte magic constant. -/
def HEADER_BYTES : List Nat := [0x55, 0x4c, 0x6f, 0x67, 0x01, 0x12, 0x35]

def MSG_TYPE_FORMAT : Nat := 70
def MSG_TYPE_DATA : Nat := 68
def MSG_TYPE_INFO : Nat := 73
def MSG_TYPE_PARAMETER : Nat := 80
def MSG_TYPE_ADD_LOGGED_MSG : Nat := 65
def MSG_TYPE_REMOVE_LOGGED_MSG : Nat := 82
def MSG_TYPE_SYNC : Nat := 83
def MSG_TYPE_DROPOUT : Nat := 79
def MSG_TYPE_LOGGING : Nat := 76

/-- `ULog._UNPACK_TYPES`, reduced to what the claims use: the wire width in
bytes of each primitive type (the struct format character and the numpy
scalar type of the source table are determined by the same key and enter
the model only through these widths). -/
def _UNPACK_TYPES : List (String × Nat) :=
  [("int8_t", 1), ("uint8_t", 1), ("int16_t", 2), ("uint16_t", 2),
   ("int32_t", 4), ("uint32_t", 4), ("int64_t", 8), ("uint64_t", 8),
   ("float", 4), ("double", 8), ("bool", 1), ("char", 1)]

/-- membership test `type_name in ULog._UNPACK_TYPES`. -/
def isUnpackType (s : String) : Bool :=
  (_UNPACK_TYPES.lookup s).isSome

/-- `ULog.get_field_size`: width in bytes of a primitive type. -/
def get_field_size (s : String) : Nat :=
  (_UNPACK_TYPES.lookup s).getD 0

/-- `ULog._FieldData`: type and name of a single flattened field. -/
structure _FieldData where
  field_name : String
  type_str : String
deriving DecidableEq

/-- `ULog.MessageFormat`: name plus ordered field list; each field is
(type name, array size, field name) exactly as `_extract_type` returns. -/
structure MessageFormat where
  name : String
  fields : List (String × Nat × String)
deriving DecidableEq

/-- collect a list of optional results, failing if any failed (the source
loop aborts with the exception of the first failing recursive call; only
success versus failure of the whole flattening is observable, because an
exception in `_MessageAddLogged.__init__` aborts the message). -/
def allSome {α : Type} : List (Option α) → Option (List α)
  | [] => some []
  | none :: _ => none
  | some a :: rest => (allSome rest).map (a :: ·)

/-- `_MessageAddLogged._parse_nested_type`: recursively flatten the named
composite type, qualifying field names with `pre_str`.  The fuel argument
models Python's recursion limit: a missing schema name (`KeyError`) and
exhausted fuel (`RecursionError` on a cyclic schema) both yield `none`.
The source's left-to-right `self.field_data.append` loop over
`message_format.fields` is written as a right fold producing the same
concatenation. -/
def _parse_nested_type (formats : List (String × MessageFormat)) :
    Nat → String → String → Option (List _FieldData)
  | 0, _, _ => none
  | fuel + 1, pre_str, type_name =>
    match dictGet formats type_name with
    | none => none
    | some mf =>
      mf.fields.foldr
        (fun f acc =>
          match acc with
          | none => none
          | some tail =>
            let type_name := f.1
            let array_size := f.2.1
            let field_name := f.2.2
            if isUnpackType type_name then
              let emitted : List _FieldData :=
                if array_size > 1 then
                  (List.range array_size).map fun i =>
                    ⟨pre_str ++ field_name ++ "[" ++ toString i ++ "]",
                     type_name⟩
                else [⟨pre_str ++ field_name, type_name⟩]
              some (emitted ++ tail)
            else
              if array_size > 1 then
                match allSome ((List.range array_size).map fun i =>
                    _parse_nested_type formats fuel
                      (pre_str ++ field_name ++ "[" ++ toString i ++ "].")
                      type_name) with
                | none => none
                | some ls => some (ls.flatten ++ tail)
              else
                match _parse_nested_type formats fuel
                    (pre_str ++ field_name ++ ".") type_name with
                | none => none
                | some a => some (a ++ tail))
        (some [])

/-- Python `s.startswith(pre)` (written on the character lists so that it
evaluates inside the kernel). -/
def strStartsWith (s pre : String) : Bool :=
  pre.data.isPrefixOf s.data

/-- Python `s.split(sep)` for a one-character separator, keeping empty
parts, exactly like `str.split` with an explicit separator. -/
def chSplit (sep : Char) : List Char → List (List Char)
  | [] => [[]]
  | c :: rest =>
    let r := chSplit sep rest
    if c = sep then [] :: r
    else
      match r with
      | h :: t => (c :: h) :: t
      | [] => [[c]]

/-- Python `s.split(sep)` on strings (single-character separator). -/
def strSplit (sep : Char) (s : String) : List String :=
  (chSplit sep s.data).map String.mk

/-- `field_name.startswith('_padding')`. -/
def startsWithPadding (f : _FieldData) : Bool :=
  strStartsWith f.field_name "_padding"

/-- the trailing-padding removal loop at the end of `_parse_format` (pop
from the back while the last name starts with `_padding`). -/
def trimPadding (l : List _FieldData) : List _FieldData :=
  ((l.reverse).dropWhile startsWithPadding).reverse

/-- the entries the trailing-padding removal loop pops (used to compare
trimmed and untrimmed layouts). -/
def paddingTail (l : List _FieldData) : List _FieldData :=
  ((l.reverse).takeWhile startsWithPadding).reverse

/-- `_MessageAddLogged._parse_format`: flatten the message's own type with
an empty name qualifier, then drop trailing `_padding` fields. -/
def _parse_format (formats : List (String × MessageFormat)) (fuel : Nat)
    (message_name : String) : Option (List _FieldData) :=
  (_parse_nested_type formats fuel "" message_name).map trimPadding

/-- the `timestamp_offset` loop of `_MessageAddLogged.__init__`: sum of
widths of the fields before the one literally named `timestamp` (the sum
of all widths when no field has that name). -/
def timestampOffset : List _FieldData → Nat
  | [] => 0
  | f :: rest =>
    if f.field_name = "timestamp" then 0
    else get_field_size f.type_str + timestampOffset rest

/-- itemsize of the packed numpy dtype that `_MessageAddLogged.__init__`
builds from `field_data`: the byte stride `np.frombuffer` uses to slice
the accumulated buffer into records. -/
def recordStride (fd : List _FieldData) : Nat :=
  (fd.map fun f => get_field_size f.type_str).sum

/-- value of an info/parameter message.  The source decodes the value with
`struct.unpack` according to the declared type; the model keeps the declared
type together with the exact-width raw little-endian bytes (`prim`), since
no claim inspects a decoded number; strings (`str`) and unrecognized types
passed through as opaque bytes (`raw`) follow the source directly. -/
inductive InfoValue where
  | str : String → InfoValue
  | prim : String → List Nat → InfoValue
  | raw : List Nat → InfoValue
deriving DecidableEq

/-- `ULog._MessageInfo.__init__`: one length-prefixed "type key" string
followed by the value bytes.  `struct.error` on an empty payload or on a
value whose size differs from the declared primitive width; `IndexError`
when the type-key string has no space. -/
def _MessageInfo_parse (data : List Nat) : Except PyErr (String × InfoValue) :=
  match data with
  | [] => .error .structErr
  | key_len :: rest =>
    let type_key := _parse_string (rest.take key_len)
    match strSplit ' ' type_key with
    | [] => .error .indexErr
    | [_] => .error .indexErr
    | ty :: key :: _ =>
      let value_bytes := data.drop (1 + key_len)
      if strStartsWith ty "char[" then
        .ok (key, .str (_parse_string value_bytes))
      else
        match _UNPACK_TYPES.lookup ty with
        | some w =>
          if value_bytes.length = w then .ok (key, .prim ty value_bytes)
          else .error .structErr
        | none => .ok (key, .raw value_bytes)

/-- Python `int(s)` for the array-length strings of a type specifier,
modelled for decimal digit strings; any other content fails with
`ValueError` just as `int` does. -/
def parsePyInt (cs : List Char) : Option Nat :=
  if cs ≠ [] ∧ cs.all Char.isDigit then
    some (cs.foldl (fun acc c => acc * 10 + (c.toNat - 48)) 0)
  else none

/-- `MessageFormat._extract_type`: split "typeSpec name", and decode a
trailing `[count]` on the type if present (`find` returning the first
occurrence, and the `-1` sentinel of a missing `]` making the slice stop
before the last character, as in the source). -/
def _extract_type (field_str : String) : Except PyErr (String × Nat × String) :=
  match strSplit ' ' field_str with
  | [] => .error .indexErr
  | [_] => .error .indexErr
  | type_str :: name_str :: _ =>
    let cs := type_str.data
    match cs.findIdx? (· = '[') with
    | none => .ok (type_str, 1, name_str)
    | some a_pos =>
      let digits :=
        match cs.findIdx? (· = ']') with
        | some b_pos => (cs.drop (a_pos + 1)).take (b_pos - (a_pos + 1))
        | none => (cs.drop (a_pos + 1)).dropLast
      match parsePyInt digits with
      | some n => .ok (String.mk (cs.take a_pos), n, name_str)
      | none => .error .valueErr

/-- the `for t in types_str` loop of `MessageFormat.__init__` (empty
entries, such as the one after the trailing semicolon, are skipped). -/
def extractFieldsLoop : List String → Except PyErr (List (String × Nat × String))
  | [] => .ok []
  | t :: rest =>
    if t.data.length > 0 then
      match _extract_type t with
      | .error e => .error e
      | .ok f =>
        match extractFieldsLoop rest with
        | .error e => .error e
        | .ok fs => .ok (f :: fs)
    else extractFieldsLoop rest

/-- `ULog.MessageFormat.__init__`: "name:field1;field2;...". -/
def _MessageFormat_parse (data : List Nat) : Except PyErr MessageFormat :=
  match strSplit ':' (_parse_string data) with
  | [] => .error .indexErr
  | [_] => .error .indexErr
  | name :: types_part :: _ =>
    match extractFieldsLoop (strSplit ';' types_part) with
    | .error e => .error e
    | .ok fields => .ok ⟨name, fields⟩

/-- Python's default recursion limit, bounding the schema flattening
recursion depth. -/
def RECURSION_LIMIT : Nat := 1000

/-- `ULog._MessageAddLogged`: an active subscription. -/
structure _MessageAddLogged where
  multi_id : Nat
  msg_id : Nat
  message_name : String
  field_data : List _FieldData
  timestamp_offset : Nat
  buffer : List Nat
deriving DecidableEq

/-- `ULog._MessageAddLogged.__init__`: 1-byte multi id, 2-byte message id,
name string; then flatten the format and precompute the timestamp offset.
The duplicate-field check models the `ValueError` that `np.dtype` raises
on a repeated field name while the dtype is built. -/
def _MessageAddLogged_parse (formats : List (String × MessageFormat))
    (data : List Nat) : Except PyErr _MessageAddLogged :=
  if data.length < 3 then .error .structErr
  else
    let multi_id := data[0]!
    let msg_id := data[1]! + 256 * data[2]!
    let message_name := _parse_string (data.drop 3)
    match _parse_format formats RECURSION_LIMIT message_name with
    | none => .error .keyErr
    | some fd =>
      if (fd.map fun f => f.field_name).Nodup then
        .ok ⟨multi_id, msg_id, message_name, fd, timestampOffset fd, []⟩
      else .error .valueErr

/-- `ULog.MessageLogging`: level byte, 8-byte timestamp, text. -/
structure MessageLogging where
  log_level : Nat
  timestamp : Nat
  message : String
deriving DecidableEq

/-- `ULog.MessageLogging.__init__` (struct.error on a payload too short
for the level byte or the 8-byte timestamp). -/
def MessageLogging_parse (data : List Nat) : Except PyErr MessageLogging :=
  if data.length < 1 then .error .structErr
  else if ((data.drop 1).take 8).length ≠ 8 then .error .structErr
  else .ok ⟨data[0]!, leUInt ((data.drop 1).take 8), _parse_string (data.drop 9)⟩

/-- `ULog.MessageDropout`: 2-byte duration stamped with the running
last-timestamp. -/
structure MessageDropout where
  duration : Nat
  timestamp : Nat
deriving DecidableEq

/-- `ULog.Data`, as the Topic Materializer produces it from a
subscription; the columnar arrays of the source are reconstructed from
`buffer` and `field_data`, so the model keeps those. -/
structure DataItem where
  multi_id : Nat
  name : String
  field_data : List _FieldData
  buffer : List Nat
deriving DecidableEq

/-- the mutable state of a `ULog` object (the fields `__init__` creates).
`warnings` models the ids for which the "no subscription found" warning
has been printed, in print order. -/
structure ULogState where
  start_timestamp : Nat
  last_timestamp : Nat
  msg_info_dict : List (String × InfoValue)
  initial_parameters : List (String × InfoValue)
  changed_parameters : List (Nat × String × InfoValue)
  message_formats : List (String × MessageFormat)
  logged_messages : List MessageLogging
  dropouts : List MessageDropout
  data_list : List DataItem
  subscriptions : List (Nat × _MessageAddLogged)
  filtered_message_ids : List Nat
  missing_message_ids : List Nat
  warnings : List Nat
deriving DecidableEq

/-- the state `ULog.__init__` sets up before `_load_file`. -/
def initState : ULogState :=
  ⟨0, 0, [], [], [], [], [], [], [], [], [], [], []⟩

/-- `ULog._MessageData.initialize`: look the record's id up in the
subscription table.  The returned state reflects every mutation performed
before a `struct.error` is raised, in particular the buffer append that
precedes the 8-byte timestamp unpack; the second component is the record
timestamp, or the `struct.error` of a record too short for that unpack.
An unknown id that is not filtered is warned about once (the printed
warning is recorded in `warnings`) and yields timestamp 0. -/
def _MessageData_init (data : List Nat) (st : ULogState) :
    ULogState × Except PyErr Nat :=
  if data.length < 2 then (st, .error .structErr)
  else
    let msg_id := data[0]! + 256 * data[1]!
    match dictGet st.subscriptions msg_id with
    | some sub =>
      let sub' := { sub with buffer := sub.buffer ++ data.drop 2 }
      let st' := { st with
        subscriptions := dictInsert st.subscriptions msg_id sub' }
      let slice := (data.drop (sub.timestamp_offset + 2)).take 8
      if slice.length ≠ 8 then (st', .error .structErr)
      else (st', .ok (leUInt slice))
    | none =>
      if msg_id ∈ st.filtered_message_ids then (st, .ok 0)
      else if msg_id ∈ st.missing_message_ids then (st, .ok 0)
      else
        ({ st with
            missing_message_ids := setAdd st.missing_message_ids msg_id,
            warnings := st.warnings ++ [msg_id] }, .ok 0)

/-- dispatch of one message inside the `_read_file_data` loop, in the
source's branch order; `none` in the second component means no exception
was raised (unknown message types are skipped).  For a data record this
includes the update of the running last-timestamp performed by the loop
right after `msg_data.initialize`. -/
def handleMsg (flt : Option (List String)) (msg_type : Nat) (data : List Nat)
    (st : ULogState) : ULogState × Option PyErr :=
  if msg_type = MSG_TYPE_PARAMETER then
    match _MessageInfo_parse data with
    | .error e => (st, some e)
    | .ok (k, v) =>
      ({ st with changed_parameters :=
          st.changed_parameters ++ [(st.last_timestamp, k, v)] }, none)
  else if msg_type = MSG_TYPE_ADD_LOGGED_MSG then
    match _MessageAddLogged_parse st.message_formats data with
    | .error e => (st, some e)
    | .ok m =>
      match flt with
      | none =>
        ({ st with subscriptions := dictInsert st.subscriptions m.msg_id m },
         none)
      | some names =>
        if m.message_name ∈ names then
          ({ st with subscriptions := dictInsert st.subscriptions m.msg_id m },
           none)
        else
          ({ st with
              filtered_message_ids := setAdd st.filtered_message_ids m.msg_id },
           none)
  else if msg_type = MSG_TYPE_LOGGING then
    match MessageLogging_parse data with
    | .error e => (st, some e)
    | .ok m => ({ st with logged_messages := st.logged_messages ++ [m] }, none)
  else if msg_type = MSG_TYPE_DATA then
    let r := _MessageData_init data st
    match r.2 with
    | .error e => (r.1, some e)
    | .ok ts =>
      if ts ≠ 0 ∧ ts > r.1.last_timestamp then
        ({ r.1 with last_timestamp := ts }, none)
      else (r.1, none)
  else if msg_type = MSG_TYPE_DROPOUT then
    if data.length = 2 then
      ({ st with dropouts := st.dropouts ++ [⟨leUInt data, st.last_timestamp⟩] },
       none)
    else (st, some .structErr)
  else (st, none)

/-- the `while True` loop of `ULog._read_file_data`, reading from the
remaining byte stream.  Each iteration consumes at least 3 bytes, so the
structural fuel `stream.length + 1` supplied by `_read_file_data_loop` is
never exhausted; the fuel-0 branch is unreachable.  The second component
is `none` for the normal `break` (fewer payload bytes than the envelope
declares) and `some e` for an exception — a header read of fewer than 3
bytes, including a clean end of stream, raises `struct.error` inside
`header.initialize`. -/
def _read_file_data_go (flt : Option (List String)) :
    Nat → List Nat → ULogState → ULogState × Option PyErr
  | 0, _, st => (st, some .structErr)
  | fuel + 1, stream, st =>
    if stream.length < 3 then (st, some .structErr)
    else
      let msg_size := stream[0]! + 256 * stream[1]!
      let msg_type := stream[2]!
      let data := (stream.drop 3).take msg_size
      if data.length < msg_size then (st, none)
      else
        match handleMsg flt msg_type data st with
        | (st', some e) => (st', some e)
        | (st', none) =>
          _read_file_data_go flt fuel (stream.drop (3 + msg_size)) st'

/-- the `_read_file_data` message loop with its (always sufficient) fuel. -/
def _read_file_data_loop (flt : Option (List String)) (stream : List Nat)
    (st : ULogState) : ULogState × Option PyErr :=
  _read_file_data_go flt (stream.length + 1) stream st

/-- the `Data` object a subscription materializes into, when
`np.frombuffer` accepts its buffer. -/
def dataItemOfSub (m : _MessageAddLogged) : DataItem :=
  ⟨m.multi_id, m.message_name, m.field_data, m.buffer⟩

/-- `ULog.Data.__init__` for one subscription: `np.frombuffer` slices the
accumulated buffer with the packed dtype's itemsize, raising `ValueError`
when the buffer length is not a positive multiple of that stride. -/
def _Data_of (m : _MessageAddLogged) : Except PyErr DataItem :=
  let stride := recordStride m.field_data
  if stride = 0 then .error .valueErr
  else if m.buffer.length % stride ≠ 0 then .error .valueErr
  else .ok (dataItemOfSub m)

/-- the `while self._subscriptions: popitem()` conversion loop at the end
of `_read_file_data` (`popitem` pops the most recently inserted entry, so
the caller passes the subscription list reversed); only subscriptions
with a non-empty buffer produce a `Data` object. -/
def materializeSubs : List (Nat × _MessageAddLogged) → List DataItem →
    Except PyErr (List DataItem)
  | [], acc => .ok acc
  | (_, m) :: rest, acc =>
    if m.buffer.length > 0 then
      match _Data_of m with
      | .error e => .error e
      | .ok d => materializeSubs rest (acc ++ [d])
    else materializeSubs rest acc

/-- the final-representation step of `_read_file_data`. -/
def _materialize (st : ULogState) : Except PyErr ULogState :=
  match materializeSubs st.subscriptions.reverse st.data_list with
  | .error e => .error e
  | .ok dl => .ok { st with data_list := dl, subscriptions := [] }

/-- `ULog._read_file_data`: run the message loop under
`except struct.error: pass`, then convert every remaining subscription
with data into its final representation.  Exceptions other than
`struct.error` (and any exception of the conversion itself) propagate. -/
def _read_file_data (flt : Option (List String)) (stream : List Nat)
    (st : ULogState) : Except PyErr ULogState :=
  match _read_file_data_loop flt stream st with
  | (st', none) => _materialize st'
  | (st', some .structErr) => _materialize st'
  | (_, some e) => .error e

/-- the two fatal header failures of `_read_file_header` (the source
raises plain `Exception`s whose messages the specification names
`TruncatedError` and `FormatError`). -/
inductive HeaderError where
  | truncatedError
  | formatError
deriving DecidableEq

/-- `ULog._read_file_header`: read 16 bytes; fail if fewer are available;
fail if the first 7 are not the magic; the `Bool` records whether the
non-fatal unknown-version warning was printed; the start timestamp is the
little-endian unsigned 64-bit value of bytes 8..15. -/
def _read_file_header (file : List Nat) :
    Except HeaderError (Nat × Bool) :=
  let header_data := file.take 16
  if header_data.length ≠ 16 then .error .truncatedError
  else if header_data.take 7 ≠ HEADER_BYTES then .error .formatError
  else .ok (leUInt (header_data.drop 8), (header_data.drop 7).take 1 != [0])

/-- the `while True` loop of `ULog._read_file_definitions`, over the file
bytes and an explicit read position (the source's file-handle offset).
Each iteration that continues advances the position by at least 3, so the
structural fuel `file.length + 1` supplied by `_read_file_definitions` is
never exhausted.  On the first AddLoggedMessage or Logging header the
loop seeks back by the full `3 + msg_size` and returns (an overall
negative position would raise `OSError`); errors inside the message
constructors propagate, since this phase has no exception handler. -/
def _read_file_definitions_go (file : List Nat) :
    Nat → Nat → ULogState → ULogState × Except PyErr Nat
  | 0, pos, st => (st, .ok pos)
  | fuel + 1, pos, st =>
    let data := (file.drop pos).take 3
    if data.length = 0 then (st, .ok pos)
    else if data.length ≠ 3 then (st, .error .structErr)
    else
      let msg_size := data[0]! + 256 * data[1]!
      let msg_type := data[2]!
      let payload := (file.drop (pos + 3)).take msg_size
      let pos3 := pos + 3 + payload.length
      if msg_type = MSG_TYPE_INFO then
        match _MessageInfo_parse payload with
        | .error e => (st, .error e)
        | .ok (k, v) =>
          _read_file_definitions_go file fuel pos3
            { st with msg_info_dict := dictInsert st.msg_info_dict k v }
      else if msg_type = MSG_TYPE_FORMAT then
        match _MessageFormat_parse payload with
        | .error e => (st, .error e)
        | .ok mf =>
          _read_file_definitions_go file fuel pos3
            { st with message_formats := dictInsert st.message_formats mf.name mf }
      else if msg_type = MSG_TYPE_PARAMETER then
        match _MessageInfo_parse payload with
        | .error e => (st, .error e)
        | .ok (k, v) =>
          _read_file_definitions_go file fuel pos3
            { st with initial_parameters := dictInsert st.initial_parameters k v }
      else if msg_type = MSG_TYPE_ADD_LOGGED_MSG ∨ msg_type = MSG_TYPE_LOGGING then
        if pos3 < 3 + msg_size then (st, .error .osErr)
        else (st, .ok (pos3 - (3 + msg_size)))
      else _read_file_definitions_go file fuel pos3 st

/-- `ULog._read_file_definitions` with its (always sufficient) fuel;
returns the state and the stream position at which the data phase starts
reading. -/
def _read_file_definitions (file : List Nat) (pos : Nat) (st : ULogState) :
    ULogState × Except PyErr Nat :=
  _read_file_definitions_go file (file.length + 1) pos st

/-- everything `ULog.__init__` can raise. -/
inductive ULogError where
  | header : HeaderError → ULogError
  | py : PyErr → ULogError
deriving DecidableEq

/-- `ULog._load_file`: header, then `_last_timestamp = _start_timestamp`,
then the definitions phase from position 16, then the data phase from the
position the definitions phase stopped at. -/
def _load_file (file : List Nat)
    (message_name_filter_list : Option (List String)) :
    Except ULogError ULogState :=
  match _read_file_header file with
  | .error e => .error (.header e)
  | .ok (ts, _) =>
    let st := { initState with start_timestamp := ts, last_timestamp := ts }
    match _read_file_definitions file 16 st with
    | (_, .error e) => .error (.py e)
    | (st2, .ok pos) =>
      match _read_file_data message_name_filter_list (file.drop pos) st2 with
      | .error e => .error (.py e)
      | .ok st3 => .ok st3

/-- `ULog.get_dataset`: first element of the name and multi-id filtered
data list; the `[0]` of the source raises `IndexError` exactly when the
filtered list is empty, modelled by `none`. -/
def get_dataset (data_list : List DataItem) (name : String)
    (multi_instance : Nat) : Option DataItem :=
  (data_list.filter fun e =>
    e.name == name && e.multi_id == multi_instance).head?

/-- the `np.where(x[:-1] != x[1:])[0] + 1` sample selection of
`Data.list_value_changes`: the elements at positions whose value differs
from the one before. -/
def adjChanges {α : Type} [DecidableEq α] : List (Nat × α) → List (Nat × α)
  | [] => []
  | [_] => []
  | a :: b :: rest => (if a.2 = b.2 then [] else [b]) ++ adjChanges (b :: rest)

/-- `ULog.Data.list_value_changes` on the timestamp column `t` and the
requested field's column `x` (columns of one `Data` object have equal
length, so the simultaneous mask of the source is a filter of the zipped
columns): drop records with timestamp 0, then return the first remaining
sample followed by every sample whose value changed. -/
def list_value_changes {α : Type} [DecidableEq α] (t : List Nat)
    (x : List α) : List (Nat × α) :=
  let pairs := (t.zip x).filter fun p => p.1 != 0
  match pairs with
  | [] => []
  | p :: _ => p :: adjChanges pairs

/-- bytes of an ASCII string, for writing concrete test streams. -/
def strBytes (s : String) : List Nat :=
  s.data.map Char.toNat

/-! ### Concrete inputs used by witnesses and counterexamples -/

/-- payload of a Format message declaring `t` = timestamp + uint32. -/
def exFmtPayload : List Nat := strBytes "t:uint64_t timestamp;uint32_t x;"

/-- a valid 16-byte file header with start timestamp 100. -/
def exHeader : List Nat := HEADER_BYTES ++ [0] ++ [100, 0, 0, 0, 0, 0, 0, 0]

/-- a complete well-formed log: header, Format, AddLoggedMessage, and two
complete data records for subscription id 0 (stride 12). -/
def exFileGood : List Nat :=
  exHeader ++ [32, 0, 70] ++ exFmtPayload
    ++ [4, 0, 65] ++ [0, 0, 0] ++ strBytes "t"
    ++ [14, 0, 68] ++ [0, 0] ++ [5, 0, 0, 0, 0, 0, 0, 0] ++ [1, 0, 0, 0]
    ++ [14, 0, 68] ++ [0, 0] ++ [6, 0, 0, 0, 0, 0, 0, 0] ++ [2, 0, 0, 0]

/-- the state `exFileGood` parses to. -/
def exGoodFin : ULogState :=
  ((_load_file exFileGood none).toOption).getD initState

/-- `exFileGood` with one further data record whose 12 payload bytes stop
inside the record body (after the 8-byte timestamp), followed by an
envelope claiming 65535 payload bytes when none remain (the mid-record
truncation of C3).  Subscription 0 ends with 24 + 10 = 34 buffered bytes,
not a multiple of its 12-byte stride. -/
def exFileC3 : List Nat :=
  exFileGood
    ++ [12, 0, 68] ++ [0, 0] ++ [7, 0, 0, 0, 0, 0, 0, 0] ++ [9, 9]
    ++ [255, 255, 68]

/-- `exFileGood` with one further data record for subscription 0 whose
payload has only 5 bytes — fewer than `timestamp_offset + 10 = 10` — so
the 8-byte timestamp unpack raises `struct.error` after the 3 record
bytes were appended (24 + 3 = 27 buffered bytes, not a multiple of 12),
followed by a further complete data record that the aborted loop never
reaches. -/
def exFileC10 : List Nat :=
  exFileGood
    ++ [5, 0, 68] ++ [0, 0] ++ [9, 9, 9]
    ++ [14, 0, 68] ++ [0, 0] ++ [8, 0, 0, 0, 0, 0, 0, 0] ++ [3, 0, 0, 0]

/-- `exFileGood` with two data records for the never-subscribed id 7
interleaved: exactly one warning for id 7 must be printed. -/
def exFileWarn : List Nat :=
  exFileGood
    ++ [14, 0, 68] ++ [7, 0] ++ [7, 0, 0, 0, 0, 0, 0, 0] ++ [9, 0, 0, 0]
    ++ [14, 0, 68] ++ [7, 0] ++ [8, 0, 0, 0, 0, 0, 0, 0] ++ [9, 0, 0, 0]

/-- the state `exFileWarn` parses to. -/
def exWarnFin : ULogState :=
  ((_load_file exFileWarn none).toOption).getD initState

/-- schema with a trailing 3-byte filler array after 9 bytes of data. -/
def exFormatsC1 : List (String × MessageFormat) :=
  [("gps", ⟨"gps", [("uint64_t", 1, "timestamp"), ("uint8_t", 1, "a"),
                    ("uint8_t", 3, "_padding0")]⟩)]

/-- the unfiltered flattening of `gps`: 12 bytes of primitive widths. -/
def exUntrimmedC1 : List _FieldData :=
  [⟨"timestamp", "uint64_t"⟩, ⟨"a", "uint8_t"⟩, ⟨"_padding0[0]", "uint8_t"⟩,
   ⟨"_padding0[1]", "uint8_t"⟩, ⟨"_padding0[2]", "uint8_t"⟩]

/-- the subscription `_MessageAddLogged.__init__` builds for `gps`: the
trailing filler entries are gone from `field_data`, so the dtype the
materializer slices with has itemsize 9, not 12. -/
def exSubC1 : _MessageAddLogged :=
  ⟨0, 0, "gps", [⟨"timestamp", "uint64_t"⟩, ⟨"a", "uint8_t"⟩], 0, []⟩

/-- schema registry for the nested-array flattening example. -/
def exFormatsC6 : List (String × MessageFormat) :=
  [("top", ⟨"top", [("sub", 3, "field")]⟩),
   ("sub", ⟨"sub", [("int32_t", 1, "a"), ("int32_t", 1, "b")]⟩)]

/-- two distinct data sets with the same name and multi id. -/
def exDataA : DataItem := ⟨0, "a", [], [1]⟩

/-- second of the two ambiguous data sets. -/
def exDataB : DataItem := ⟨0, "a", [], [2]⟩

/-- a live subscription with stride 12, timestamp offset 0 and one
complete buffered record. -/
def exSub10 : _MessageAddLogged :=
  ⟨0, 0, "t", [⟨"timestamp", "uint64_t"⟩, ⟨"x", "uint32_t"⟩], 0,
   [5, 0, 0, 0, 0, 0, 0, 0, 1, 0, 0, 0]⟩

/-- a parse state holding `exSub10` under id 0. -/
def exStC10 : ULogState :=
  { initState with start_timestamp := 100, last_timestamp := 100,
                   subscriptions := [(0, exSub10)] }

/-- a 5-byte data-record payload for id 0: shorter than
`timestamp_offset + 10`. -/
def exDataShort : List Nat := [0, 0, 9, 9, 9]

/-- the state `_MessageData_init exDataShort exStC10` leaves behind: the
3 record bytes are appended before the failing unpack. -/
def exStC10' : ULogState :=
  { exStC10 with subscriptions :=
      [(0, { exSub10 with buffer := exSub10.buffer ++ [9, 9, 9] })] }

/-- the invariant tying the printed missing-subscription warnings to the
`_missing_message_ids` set: one warning exactly for each recorded id. -/
def warnInv (st : ULogState) : Prop :=
  ∀ i : Nat, st.warnings.count i = if i ∈ st.missing_message_ids then 1 else 0

/-- the subscription table after a data record for an already subscribed
id appended its bytes past the 2-byte id to that subscription's buffer
(the mutation `subscription.buffer += data[2:]` of
`_MessageData.initialize`). -/
def subsAfterShort (st : ULogState) (data : List Nat)
    (sub : _MessageAddLogged) : List (Nat × _MessageAddLogged) :=
  dictInsert st.subscriptions (data[0]! + 256 * data[1]!)
    { sub with buffer := sub.buffer ++ data.drop 2 }

/-- the data-phase stream consisting of one data-record envelope for a
payload `data` followed by arbitrary further bytes. -/
def dataEnvStream (data rest : List Nat) : List Nat :=
  data.length % 256 :: data.length / 256 :: MSG_TYPE_DATA :: (data ++ rest)

/-! ### Helper lemmas -/

theorem lookup_mem {β : Type} (l : List (Nat × β)) (k : Nat) (v : β)
    (h : l.lookup k = some v) : (k, v) ∈ l := by
  induction l with
  | nil => simp [List.lookup] at h
  | cons p rest ih =>
    rw [List.lookup] at h
    by_cases hk : k == p.1
    · simp [hk] at h
      rw [List.mem_cons]
      have hk' : k = p.1 := by simpa using hk
      cases p
      simp_all
    · simp [hk] at h
      rw [List.mem_cons]
      right
      exact ih h

theorem recordStride_append (a b : List _FieldData) :
    recordStride (a ++ b) = recordStride a + recordStride b := by
  simp [recordStride]

theorem recordStride_reverse (l : List _FieldData) :
    recordStride l.reverse = recordStride l := by
  simp [recordStride, List.map_reverse, List.sum_reverse]

/-! ### C1 -/

/-- C1 counterexample: for the `gps` type with a trailing 3-byte filler
array, the subscription's `field_data` is the trimmed list, whose dtype
itemsize — the stride `np.frombuffer` slices buffers with — is 9, while
the sum of the primitive widths of the original unfiltered flattened
field list is 12. -/
theorem c1_cex :
    _MessageAddLogged_parse exFormatsC1 ([0, 0, 0] ++ strBytes "gps") =
      .ok exSubC1 ∧
    recordStride exSubC1.field_data = 9 ∧
    _parse_nested_type exFormatsC1 RECURSION_LIMIT "" "gps" =
      some exUntrimmedC1 ∧
    recordStride exUntrimmedC1 = 12 := by
  exact ⟨rfl, by decide, by decide, by decide⟩

/-- C1 (amended): the flattened list the subscription keeps is the
untrimmed list with its trailing filler entries removed, and the byte
stride used to slice the buffer is the untrimmed width sum minus the
widths of exactly those dropped trailing filler entries — filler does not
occupy bytes in the stride. -/
theorem c1_thm (formats : List (String × MessageFormat)) (fuel : Nat)
    (name : String) (l : List _FieldData)
    (h : _parse_nested_type formats fuel "" name = some l) :
    _parse_format formats fuel name = some (trimPadding l) ∧
    recordStride (trimPadding l) + recordStride (paddingTail l) =
      recordStride l ∧
    (∀ f ∈ paddingTail l, startsWithPadding f = true) := by
  refine ⟨by unfold _parse_format; rw [h]; rfl, ?_, ?_⟩
  · unfold trimPadding paddingTail
    rw [recordStride_reverse, recordStride_reverse, Nat.add_comm,
      ← recordStride_append, List.takeWhile_append_dropWhile,
      recordStride_reverse]
  · intro f hf
    unfold paddingTail at hf
    rw [List.mem_reverse] at hf
    exact List.mem_takeWhile_imp hf

/-- C1 witness: the amended statement evaluated on the `gps` schema. -/
theorem c1_witness :
    _parse_format exFormatsC1 RECURSION_LIMIT "gps" =
      some (trimPadding exUntrimmedC1) ∧
    recordStride (trimPadding exUntrimmedC1) +
      recordStride (paddingTail exUntrimmedC1) =
      recordStride exUntrimmedC1 := by
  have h := c1_thm exFormatsC1 RECURSION_LIMIT "gps" exUntrimmedC1 (by decide)
  exact ⟨h.1, h.2.1⟩

/-! ### C2 -/

/-- C2: a stream of at least 16 bytes whose first 7 bytes are the magic
parses to the little-endian unsigned 64-bit start timestamp at bytes
8..15 (the Bool records the non-fatal unknown-version warning); a stream
of at least 16 bytes whose first 7 bytes differ from the magic fails with
the FormatError; a stream of fewer than 16 bytes fails with the
TruncatedError. -/
theorem c2_thm (file : List Nat) :
    (file.length < 16 → _read_file_header file = .error .truncatedError) ∧
    (16 ≤ file.length → file.take 7 ≠ HEADER_BYTES →
      _read_file_header file = .error .formatError) ∧
    (16 ≤ file.length → file.take 7 = HEADER_BYTES →
      _read_file_header file =
        .ok (leUInt ((file.drop 8).take 8), (file.drop 7).take 1 != [0])) := by
  refine ⟨fun h => ?_, fun h1 h2 => ?_, fun h1 h2 => ?_⟩
  · unfold _read_file_header
    rw [if_pos]
    simp only [List.length_take]
    omega
  · unfold _read_file_header
    rw [if_neg, if_pos]
    · rw [List.take_take]
      simpa using h2
    · simp only [List.length_take]
      omega
  · unfold _read_file_header
    rw [if_neg, if_neg]
    · rw [List.drop_take, List.drop_take, List.take_take]
      norm_num
    · rw [List.take_take]
      simpa using h2
    · simp only [List.length_take]
      omega

/-- C2 witness: the three behaviours at concrete streams — a 1-byte
stream, 16 zero bytes, and a valid header with timestamp 42. -/
theorem c2_witness :
    _read_file_header [0x55] = .error .truncatedError ∧
    _read_file_header (List.replicate 16 0) = .error .formatError ∧
    _read_file_header (HEADER_BYTES ++ [0] ++ [42, 0, 0, 0, 0, 0, 0, 0]) =
      .ok (42, false) := by
  refine ⟨(c2_thm _).1 (by decide), (c2_thm _).2.1 (by decide) (by decide), ?_⟩
  have h := (c2_thm (HEADER_BYTES ++ [0] ++ [42, 0, 0, 0, 0, 0, 0, 0])).2.2
    (by decide) (by decide)
  exact h

/-! ### C5 -/

/-- C5: on the value column [5, 5, 5, 7, 7, 3] with strictly increasing
non-zero timestamps, `list_value_changes` returns exactly the samples at
record indices 0, 3 and 5: the first record plus every index whose value
differs from the previous retained sample. -/
theorem c5_thm (t1 t2 t3 t4 t5 t6 : Nat)
    (h1 : t1 ≠ 0) (h2 : t2 ≠ 0) (h3 : t3 ≠ 0)
    (h4 : t4 ≠ 0) (h5 : t5 ≠ 0) (h6 : t6 ≠ 0)
    (hmono : t1 < t2 ∧ t2 < t3 ∧ t3 < t4 ∧ t4 < t5 ∧ t5 < t6) :
    list_value_changes [t1, t2, t3, t4, t5, t6] ([5, 5, 5, 7, 7, 3] : List Int) =
      [(t1, 5), (t4, 7), (t6, 3)] := by
  have b1 : (t1 != 0) = true := by simp [bne_iff_ne, h1]
  have b2 : (t2 != 0) = true := by simp [bne_iff_ne, h2]
  have b3 : (t3 != 0) = true := by simp [bne_iff_ne, h3]
  have b4 : (t4 != 0) = true := by simp [bne_iff_ne, h4]
  have b5 : (t5 != 0) = true := by simp [bne_iff_ne, h5]
  have b6 : (t6 != 0) = true := by simp [bne_iff_ne, h6]
  unfold list_value_changes
  simp [List.filter, adjChanges, b1, b2, b3, b4, b5, b6]

/-- C5 witness: the statement at timestamps 1..6. -/
theorem c5_witness :
    (1 : Nat) ≠ 0 ∧
    list_value_changes [1, 2, 3, 4, 5, 6] ([5, 5, 5, 7, 7, 3] : List Int) =
      [(1, 5), (4, 7), (6, 3)] :=
  ⟨by decide, c5_thm 1 2 3 4 5 6 (by decide) (by decide) (by decide)
    (by decide) (by decide) (by decide) (by decide)⟩

/-! ### C9 -/

/-- C9 counterexample: with two distinct data sets of the same name `a`
and multi id 0, `get_dataset` does not raise on the ambiguity — it
returns the first match even though two elements match. -/
theorem c9_cex :
    get_dataset [exDataA, exDataB] "a" 0 = some exDataA ∧
    (([exDataA, exDataB].filter fun e =>
        e.name == "a" && e.multi_id == 0)).length = 2 ∧
    exDataA ≠ exDataB := by
  refine ⟨by decide, by decide, by decide⟩

/-- C9 (amended): querying by name and multi-instance id raises the
not-found condition exactly when no data set matches; otherwise — also
when several match — the first matching data set is returned. -/
theorem c9_thm (dl : List DataItem) (name : String) (mi : Nat) :
    (get_dataset dl name mi = none ↔
      ∀ d ∈ dl, ¬(d.name = name ∧ d.multi_id = mi)) ∧
    (∀ d, get_dataset dl name mi = some d →
      d ∈ dl ∧ d.name = name ∧ d.multi_id = mi) := by
  constructor
  · unfold get_dataset
    rw [List.head?_eq_none_iff, List.filter_eq_nil_iff]
    constructor
    · intro h d hd hc
      exact h d hd (by simp [hc.1, hc.2])
    · intro h d hd hc
      rw [Bool.and_eq_true, beq_iff_eq, beq_iff_eq] at hc
      exact h d hd hc
  · intro d hd
    unfold get_dataset at hd
    have hmem : d ∈ dl.filter fun e => e.name == name && e.multi_id == mi := by
      cases hf : dl.filter fun e => e.name == name && e.multi_id == mi with
      | nil => rw [hf] at hd; simp at hd
      | cons a t =>
        rw [hf] at hd
        simp only [List.head?] at hd
        cases hd
        exact List.mem_cons_self _ _
    rw [List.mem_filter, Bool.and_eq_true, beq_iff_eq, beq_iff_eq] at hmem
    exact ⟨hmem.1, hmem.2.1, hmem.2.2⟩

/-- C9 witness: the amended statement evaluated on a one-element list. -/
theorem c9_witness :
    exDataA ∈ [exDataA] ∧ exDataA.name = "a" ∧ exDataA.multi_id = 0 :=
  (c9_thm [exDataA] "a" 0).2 exDataA (by decide)

/-! ### C6 -/

/-- C6: flattening a composite type whose field `field` is a length-3
array of a two-field composite with int32 fields `a` and `b` yields
exactly the 6 entries `field[0].a`, `field[0].b`, `field[1].a`,
`field[1].b`, `field[2].a`, `field[2].b`, in that order. -/
theorem c6_thm (formats : List (String × MessageFormat)) (fuel : Nat)
    (top sub : String) (mtop msub : MessageFormat)
    (htop : dictGet formats top = some mtop)
    (hftop : mtop.fields = [(sub, 3, "field")])
    (hprim : isUnpackType sub = false)
    (hsub : dictGet formats sub = some msub)
    (hfsub : msub.fields = [("int32_t", 1, "a"), ("int32_t", 1, "b")]) :
    _parse_format formats (fuel + 2) top =
      some [⟨"field[0].a", "int32_t"⟩, ⟨"field[0].b", "int32_t"⟩,
            ⟨"field[1].a", "int32_t"⟩, ⟨"field[1].b", "int32_t"⟩,
            ⟨"field[2].a", "int32_t"⟩, ⟨"field[2].b", "int32_t"⟩] := by
  have hsub1 : ∀ pre : String, _parse_nested_type formats (fuel + 1) pre sub =
      some [⟨pre ++ "a", "int32_t"⟩, ⟨pre ++ "b", "int32_t"⟩] := by
    intro pre
    rw [_parse_nested_type, hsub]
    dsimp only
    rw [hfsub]
    rfl
  unfold _parse_format
  have h2 : fuel + 2 = (fuel + 1) + 1 := rfl
  rw [h2, _parse_nested_type, htop]
  dsimp only
  rw [hftop]
  simp [hprim, hsub1]
  exact ⟨[⟨"field[0].a", "int32_t"⟩, ⟨"field[0].b", "int32_t"⟩,
          ⟨"field[1].a", "int32_t"⟩, ⟨"field[1].b", "int32_t"⟩,
          ⟨"field[2].a", "int32_t"⟩, ⟨"field[2].b", "int32_t"⟩],
         by decide, by decide⟩

/-- C6 witness: the flattening evaluated on the concrete registry
`exFormatsC6`. -/
theorem c6_witness :
    _parse_format exFormatsC6 2 "top" =
      some [⟨"field[0].a", "int32_t"⟩, ⟨"field[0].b", "int32_t"⟩,
            ⟨"field[1].a", "int32_t"⟩, ⟨"field[1].b", "int32_t"⟩,
            ⟨"field[2].a", "int32_t"⟩, ⟨"field[2].b", "int32_t"⟩] :=
  c6_thm exFormatsC6 0 "top" "sub" ⟨"top", [("sub", 3, "field")]⟩
    ⟨"sub", [("int32_t", 1, "a"), ("int32_t", 1, "b")]⟩
    (by decide) rfl (by decide) (by decide) rfl

/-! ### Data-phase preservation lemmas -/

theorem warnInv_of_eq (a b : ULogState) (hw : b.warnings = a.warnings)
    (hm : b.missing_message_ids = a.missing_message_ids) (h : warnInv a) :
    warnInv b := by
  intro i
  rw [hw, hm]
  exact h i

theorem warnInv_initState : warnInv initState := by
  intro i
  simp [initState]

theorem warnInv_add (st : ULogState) (m : Nat) (h : warnInv st)
    (hm : m ∉ st.missing_message_ids) :
    warnInv { st with missing_message_ids := setAdd st.missing_message_ids m,
                      warnings := st.warnings ++ [m] } := by
  intro i
  simp only [setAdd, hm, ite_false, if_neg, List.count_append]
  have hc := h i
  by_cases him : i = m
  · subst him
    rw [if_neg hm] at hc
    have h1 : List.count i [i] = 1 := by simp [List.count_cons]
    have h2 : i ∈ st.missing_message_ids ++ [i] := by simp
    rw [if_pos h2]
    omega
  · have hmi : (m == i) = false := beq_eq_false_iff_ne.mpr (fun hx => him hx.symm)
    have h1 : List.count i [m] = 0 := by simp [List.count_cons, hmi]
    have h2 : (i ∈ st.missing_message_ids ++ [m]) ↔ i ∈ st.missing_message_ids := by
      simp [List.mem_append, him]
    by_cases hin : i ∈ st.missing_message_ids
    · rw [if_pos (h2.mpr hin)]
      rw [if_pos hin] at hc
      omega
    · rw [if_neg (fun hx => hin (h2.mp hx))]
      rw [if_neg hin] at hc
      omega

theorem _MessageData_init_fields (data : List Nat) (st st' : ULogState)
    (r : Except PyErr Nat) (h : _MessageData_init data st = (st', r)) :
    st'.last_timestamp = st.last_timestamp ∧
    st'.start_timestamp = st.start_timestamp ∧
    (warnInv st → warnInv st') := by
  unfold _MessageData_init at h
  split_ifs at h
  · injection h with h1 h2
    subst h1
    exact ⟨rfl, rfl, id⟩
  · dsimp only at h
    split at h
    · split_ifs at h <;>
      · injection h with h1 h2
        subst h1
        exact ⟨rfl, rfl, id⟩
    · split_ifs at h with hfil hmiss
      · injection h with h1 h2
        subst h1
        exact ⟨rfl, rfl, id⟩
      · injection h with h1 h2
        subst h1
        exact ⟨rfl, rfl, id⟩
      · injection h with h1 h2
        subst h1
        exact ⟨rfl, rfl, fun hw => warnInv_add st _ hw hmiss⟩

theorem handleMsg_fields (flt : Option (List String)) (mt : Nat)
    (data : List Nat) (st st' : ULogState) (e : Option PyErr)
    (h : handleMsg flt mt data st = (st', e)) :
    st.last_timestamp ≤ st'.last_timestamp ∧
    st'.start_timestamp = st.start_timestamp ∧
    (warnInv st → warnInv st') := by
  unfold handleMsg at h
  split_ifs at h with h1 h2 h3 h4 h5 h6
  · split at h <;>
    · injection h with ha hb
      subst ha
      exact ⟨le_refl _, rfl, id⟩
  · split at h
    · injection h with ha hb
      subst ha
      exact ⟨le_refl _, rfl, id⟩
    · split at h
      · injection h with ha hb
        subst ha
        exact ⟨le_refl _, rfl, id⟩
      · split_ifs at h <;>
        · injection h with ha hb
          subst ha
          exact ⟨le_refl _, rfl, id⟩
  · split at h <;>
    · injection h with ha hb
      subst ha
      exact ⟨le_refl _, rfl, id⟩
  · have hf := _MessageData_init_fields data st (_MessageData_init data st).1
      (_MessageData_init data st).2 Prod.mk.eta.symm
    dsimp only at h
    split at h
    · injection h with ha hb
      subst ha
      exact ⟨le_of_eq hf.1.symm, hf.2.1, hf.2.2⟩
    · rename_i ts heq
      split_ifs at h with h7
      · injection h with ha hb
        subst ha
        refine ⟨?_, hf.2.1, hf.2.2⟩
        rw [← hf.1]
        exact le_of_lt h7.2
      · injection h with ha hb
        subst ha
        exact ⟨le_of_eq hf.1.symm, hf.2.1, hf.2.2⟩
  · injection h with ha hb
    subst ha
    exact ⟨le_refl _, rfl, id⟩
  · injection h with ha hb
    subst ha
    exact ⟨le_refl _, rfl, id⟩
  · injection h with ha hb
    subst ha
    exact ⟨le_refl _, rfl, id⟩

theorem _read_file_data_go_fields (flt : Option (List String)) :
    ∀ (fuel : Nat) (stream : List Nat) (st st' : ULogState) (e : Option PyErr),
    _read_file_data_go flt fuel stream st = (st', e) →
    st.last_timestamp ≤ st'.last_timestamp ∧
    st'.start_timestamp = st.start_timestamp ∧
    (warnInv st → warnInv st') := by
  intro fuel
  induction fuel with
  | zero =>
    intro stream st st' e h
    rw [_read_file_data_go] at h
    injection h with ha hb
    subst ha
    exact ⟨le_refl _, rfl, id⟩
  | succ n ih =>
    intro stream st st' e h
    rw [_read_file_data_go] at h
    dsimp only at h
    split_ifs at h with h1 h2
    · injection h with ha hb
      subst ha
      exact ⟨le_refl _, rfl, id⟩
    · injection h with ha hb
      subst ha
      exact ⟨le_refl _, rfl, id⟩
    · split at h
      · rename_i s1 pe heq
        injection h with ha hb
        subst ha
        exact handleMsg_fields _ _ _ _ _ _ heq
      · rename_i s1 heq
        have hstep := handleMsg_fields _ _ _ _ _ _ heq
        have hrec := ih _ s1 st' e h
        exact ⟨le_trans hstep.1 hrec.1, by rw [hrec.2.1, hstep.2.1],
          fun hw => hrec.2.2 (hstep.2.2 hw)⟩

theorem _materialize_fields (st st' : ULogState)
    (h : _materialize st = .ok st') :
    st'.last_timestamp = st.last_timestamp ∧
    st'.start_timestamp = st.start_timestamp ∧
    st'.warnings = st.warnings ∧
    st'.missing_message_ids = st.missing_message_ids := by
  unfold _materialize at h
  split at h
  · cases h
  · injection h with ha
    subst ha
    exact ⟨rfl, rfl, rfl, rfl⟩

theorem _read_file_data_fields (flt : Option (List String)) (stream : List Nat)
    (st st' : ULogState) (h : _read_file_data flt stream st = .ok st') :
    st.last_timestamp ≤ st'.last_timestamp ∧
    st'.start_timestamp = st.start_timestamp ∧
    (warnInv st → warnInv st') := by
  unfold _read_file_data at h
  split at h <;> rename_i s1 heq
  · have hgo := _read_file_data_go_fields flt (stream.length + 1) stream st s1 none heq
    have hm := _materialize_fields s1 st' h
    exact ⟨hm.1 ▸ hgo.1, by rw [hm.2.1, hgo.2.1],
      fun hw => warnInv_of_eq s1 st' hm.2.2.1 hm.2.2.2 (hgo.2.2 hw)⟩
  · have hgo := _read_file_data_go_fields flt (stream.length + 1) stream st s1
      (some .structErr) heq
    have hm := _materialize_fields s1 st' h
    exact ⟨hm.1 ▸ hgo.1, by rw [hm.2.1, hgo.2.1],
      fun hw => warnInv_of_eq s1 st' hm.2.2.1 hm.2.2.2 (hgo.2.2 hw)⟩
  · cases h

theorem _read_file_definitions_go_fields (file : List Nat) :
    ∀ (fuel : Nat) (pos : Nat) (st st' : ULogState) (r : Except PyErr Nat),
    _read_file_definitions_go file fuel pos st = (st', r) →
    st'.last_timestamp = st.last_timestamp ∧
    st'.start_timestamp = st.start_timestamp ∧
    st'.warnings = st.warnings ∧
    st'.missing_message_ids = st.missing_message_ids := by
  intro fuel
  induction fuel with
  | zero =>
    intro pos st st' r h
    rw [_read_file_definitions_go] at h
    injection h with ha hb
    subst ha
    exact ⟨rfl, rfl, rfl, rfl⟩
  | succ n ih =>
    intro pos st st' r h
    rw [_read_file_definitions_go] at h
    dsimp only at h
    split_ifs at h with h1 h2 h3 h4 h5 h6 h7
    · injection h with ha hb
      subst ha
      exact ⟨rfl, rfl, rfl, rfl⟩
    · injection h with ha hb
      subst ha
      exact ⟨rfl, rfl, rfl, rfl⟩
    · split at h
      · injection h with ha hb
        subst ha
        exact ⟨rfl, rfl, rfl, rfl⟩
      · have hrec := ih _ _ _ _ h
        exact hrec
    · split at h
      · injection h with ha hb
        subst ha
        exact ⟨rfl, rfl, rfl, rfl⟩
      · have hrec := ih _ _ _ _ h
        exact hrec
    · split at h
      · injection h with ha hb
        subst ha
        exact ⟨rfl, rfl, rfl, rfl⟩
      · have hrec := ih _ _ _ _ h
        exact hrec
    · injection h with ha hb
      subst ha
      exact ⟨rfl, rfl, rfl, rfl⟩
    · injection h with ha hb
      subst ha
      exact ⟨rfl, rfl, rfl, rfl⟩
    · have hrec := ih _ _ _ _ h
      exact hrec

theorem _load_file_fields (file : List Nat) (flt : Option (List String))
    (res : ULogState) (h : _load_file file flt = .ok res) :
    res.start_timestamp ≤ res.last_timestamp ∧
    (∃ w, _read_file_header file = .ok (res.start_timestamp, w)) ∧
    warnInv res := by
  unfold _load_file at h
  split at h
  · cases h
  · rename_i ts w hh
    dsimp only at h
    split at h
    · cases h
    · rename_i st2 pos hd
      split at h
      · cases h
      · rename_i st3 hdata
        injection h with ha
        subst ha
        unfold _read_file_definitions at hd
        have hdefs := _read_file_definitions_go_fields file (file.length + 1) 16
          { initState with start_timestamp := ts, last_timestamp := ts }
          st2 (.ok pos) hd
        have hw2 : warnInv st2 := by
          refine warnInv_of_eq _ _ hdefs.2.2.1 hdefs.2.2.2 ?_
          intro i
          simp [initState]
        have hdata' := _read_file_data_fields flt (file.drop pos) st2 st3 hdata
        have hst : st3.start_timestamp = ts := by
          rw [hdata'.2.1, hdefs.2.1]
        refine ⟨?_, ⟨w, by rw [hst]; exact hh⟩, hdata'.2.2 hw2⟩
        rw [hst]
        calc ts = st2.last_timestamp := by rw [hdefs.1]
          _ ≤ st3.last_timestamp := hdata'.1

/-! ### C7 -/

/-- C7: the running last-timestamp is monotonically non-decreasing over
the data-phase loop; each message either leaves it unchanged or — only
for a data record — replaces it with that record's timestamp, which is
non-zero and strictly greater; a changed-parameter event is stamped with
the last-timestamp current at the moment it is decoded; and for a whole
successful parse the last timestamp is at least the header's start
timestamp, to which it was initialized. -/
theorem c7_thm :
    (∀ (flt : Option (List String)) (stream : List Nat) (st st' : ULogState)
       (e : Option PyErr), _read_file_data_loop flt stream st = (st', e) →
       st.last_timestamp ≤ st'.last_timestamp) ∧
    (∀ (flt : Option (List String)) (mt : Nat) (data : List Nat)
       (st st' : ULogState) (e : Option PyErr),
       handleMsg flt mt data st = (st', e) →
       st'.last_timestamp = st.last_timestamp ∨
       (mt = MSG_TYPE_DATA ∧ st.last_timestamp < st'.last_timestamp ∧
        st'.last_timestamp ≠ 0 ∧
        (_MessageData_init data st).2 = .ok st'.last_timestamp)) ∧
    (∀ (flt : Option (List String)) (data : List Nat) (st : ULogState)
       (k : String) (v : InfoValue), _MessageInfo_parse data = .ok (k, v) →
       handleMsg flt MSG_TYPE_PARAMETER data st =
         ({ st with changed_parameters :=
             st.changed_parameters ++ [(st.last_timestamp, k, v)] }, none)) ∧
    (∀ (file : List Nat) (flt : Option (List String)) (res : ULogState),
       _load_file file flt = .ok res →
       res.start_timestamp ≤ res.last_timestamp ∧
       ∃ w, _read_file_header file = .ok (res.start_timestamp, w)) := by
  refine ⟨?_, ?_, ?_, ?_⟩
  · intro flt stream st st' e h
    exact (_read_file_data_go_fields flt (stream.length + 1) stream st st' e h).1
  · intro flt mt data st st' e h
    unfold handleMsg at h
    split_ifs at h with h1 h2 h3 h4 h5 h6
    · split at h <;>
      · injection h with ha hb
        subst ha
        exact Or.inl rfl
    · split at h
      · injection h with ha hb
        subst ha
        exact Or.inl rfl
      · split at h
        · injection h with ha hb
          subst ha
          exact Or.inl rfl
        · split_ifs at h <;>
          · injection h with ha hb
            subst ha
            exact Or.inl rfl
    · split at h <;>
      · injection h with ha hb
        subst ha
        exact Or.inl rfl
    · have hf := _MessageData_init_fields data st (_MessageData_init data st).1
        (_MessageData_init data st).2 Prod.mk.eta.symm
      dsimp only at h
      split at h
      · injection h with ha hb
        subst ha
        exact Or.inl hf.1
      · rename_i ts heq
        split_ifs at h with h7
        · injection h with ha hb
          subst ha
          refine Or.inr ⟨h4, ?_, h7.1, heq⟩
          rw [← hf.1]
          exact h7.2
        · injection h with ha hb
          subst ha
          exact Or.inl hf.1
    · injection h with ha hb
      subst ha
      exact Or.inl rfl
    · injection h with ha hb
      subst ha
      exact Or.inl rfl
    · injection h with ha hb
      subst ha
      exact Or.inl rfl
  · intro flt data st k v hp
    unfold handleMsg
    rw [if_pos rfl, hp]
  · intro file flt res h
    have hl := _load_file_fields file flt res h
    exact ⟨hl.1, hl.2.1⟩

/-- C7 witness: the parts of the statement evaluated on the complete
example log `exFileGood` and on a concrete parameter message. -/
theorem c7_witness :
    exGoodFin.start_timestamp ≤ exGoodFin.last_timestamp ∧
    handleMsg none MSG_TYPE_PARAMETER (strBytes "\x09int32_t p" ++ [1, 0, 0, 0])
        exStC10 =
      ({ exStC10 with changed_parameters := exStC10.changed_parameters ++
          [(exStC10.last_timestamp, "p", .prim "int32_t" [1, 0, 0, 0])] }, none) ∧
    exStC10.last_timestamp ≤ exStC10.last_timestamp := by
  refine ⟨(c7_thm.2.2.2 exFileGood none exGoodFin rfl).1, ?_, ?_⟩
  · exact c7_thm.2.2.1 none _ exStC10 "p" (.prim "int32_t" [1, 0, 0, 0]) rfl
  · exact c7_thm.1 none [] exStC10 exStC10 (some .structErr) rfl

/-! ### C4 -/

/-- C4: a data record whose id has no subscription and is not filtered
leaves every buffer and the running last-timestamp untouched (the
returned state differs only in the warning bookkeeping), is treated as
having timestamp 0, prints the warning exactly on the first occurrence
and never on a repeat, and across any whole successful parse at most one
warning is printed per id. -/
theorem c4_thm :
    (∀ (flt : Option (List String)) (data : List Nat) (st : ULogState),
       2 ≤ data.length →
       dictGet st.subscriptions (data[0]! + 256 * data[1]!) = none →
       data[0]! + 256 * data[1]! ∉ st.filtered_message_ids →
       ((data[0]! + 256 * data[1]! ∉ st.missing_message_ids →
          handleMsg flt MSG_TYPE_DATA data st =
            ({ st with
                missing_message_ids :=
                  setAdd st.missing_message_ids (data[0]! + 256 * data[1]!),
                warnings := st.warnings ++ [data[0]! + 256 * data[1]!] },
             none)) ∧
        (data[0]! + 256 * data[1]! ∈ st.missing_message_ids →
          handleMsg flt MSG_TYPE_DATA data st = (st, none)) ∧
        (_MessageData_init data st).2 = .ok 0)) ∧
    (∀ (file : List Nat) (flt : Option (List String)) (res : ULogState)
       (i : Nat), _load_file file flt = .ok res →
       res.warnings.count i ≤ 1) := by
  constructor
  · intro flt data st h2 hsub hfil
    have hinit : data[0]! + 256 * data[1]! ∉ st.missing_message_ids →
        _MessageData_init data st =
          ({ st with
              missing_message_ids :=
                setAdd st.missing_message_ids (data[0]! + 256 * data[1]!),
              warnings := st.warnings ++ [data[0]! + 256 * data[1]!] },
           .ok 0) := by
      intro hmiss
      unfold _MessageData_init
      rw [if_neg (by omega)]
      dsimp only
      rw [hsub]
      dsimp only
      rw [if_neg hfil, if_neg hmiss]
    have hrep : data[0]! + 256 * data[1]! ∈ st.missing_message_ids →
        _MessageData_init data st = (st, .ok 0) := by
      intro hmiss
      unfold _MessageData_init
      rw [if_neg (by omega)]
      dsimp only
      rw [hsub]
      dsimp only
      rw [if_neg hfil, if_pos hmiss]
    have hmain : ∀ X : ULogState, _MessageData_init data st = (X, .ok 0) →
        handleMsg flt MSG_TYPE_DATA data st = (X, none) := by
      intro X hX
      unfold handleMsg
      rw [if_neg (by decide), if_neg (by decide), if_neg (by decide),
        if_pos rfl]
      dsimp only
      rw [hX]
      dsimp only
      rw [if_neg]
      simp
    refine ⟨fun hmiss => hmain _ (hinit hmiss),
            fun hmiss => hmain st (hrep hmiss), ?_⟩
    by_cases hmiss : data[0]! + 256 * data[1]! ∈ st.missing_message_ids
    · rw [hrep hmiss]
    · rw [hinit hmiss]
  · intro file flt res i h
    have hw := (_load_file_fields file flt res h).2.2 i
    rw [hw]
    split <;> omega

/-- C4 witness: the step behaviour at a record for the never-subscribed
id 7 against `exStC10`, and the whole-parse bound on `exFileWarn`, whose
two id-7 records produce the single warning `[7]`. -/
theorem c4_witness :
    handleMsg none MSG_TYPE_DATA [7, 0, 1, 2] exStC10 =
      ({ exStC10 with missing_message_ids := [7], warnings := [7] }, none) ∧
    (_MessageData_init [7, 0, 1, 2] exStC10).2 = .ok 0 ∧
    exWarnFin.warnings = [7] ∧
    exWarnFin.warnings.count 7 ≤ 1 := by
  have h1 := c4_thm.1 none [7, 0, 1, 2] exStC10 (by decide) (by decide)
    (by decide)
  refine ⟨h1.1 (by decide), h1.2.2, by decide, ?_⟩
  exact c4_thm.2 exFileWarn none exWarnFin 7 rfl

/-! ### C8 -/

/-- C8: when the definitions-phase loop meets an AddLoggedMessage or
Logging envelope whose payload is fully present, it stops without
consuming it: the seek back over the full 3-byte envelope plus payload
puts the position at the start of that envelope, with the state
untouched, so the data phase reads that exact message first. -/
theorem c8_thm (file : List Nat) (pos : Nat) (st : ULogState)
    (h3 : pos + 3 ≤ file.length)
    (hty : file[pos + 2]! = MSG_TYPE_ADD_LOGGED_MSG ∨
           file[pos + 2]! = MSG_TYPE_LOGGING)
    (hsz : pos + 3 + (file[pos]! + 256 * file[pos + 1]!) ≤ file.length) :
    _read_file_definitions file pos st = (st, .ok pos) := by
  have hlen : ((file.drop pos).take 3).length = 3 := by
    simp only [List.length_take, List.length_drop]
    omega
  have hget : ∀ i, i < 3 → ((file.drop pos).take 3)[i]! = file[pos + i]! := by
    intro i hi
    have hb : pos + i < file.length := by omega
    have h1 : i < ((file.drop pos).take 3).length := by omega
    rw [getElem!_pos (List.take 3 (List.drop pos file)) i h1,
      getElem!_pos file (pos + i) hb]
    rw [List.getElem_take, List.getElem_drop]
  have hplen : ((file.drop (pos + 3)).take
      (file[pos]! + 256 * file[pos + 1]!)).length =
      file[pos]! + 256 * file[pos + 1]! := by
    simp only [List.length_take, List.length_drop]
    omega
  unfold _read_file_definitions
  rw [show file.length + 1 = file.length + 1 from rfl, _read_file_definitions_go]
  dsimp only
  rw [hget 0 (by omega), hget 1 (by omega), hget 2 (by omega), hlen]
  simp only [Nat.add_zero]
  rw [if_neg (by decide), if_neg (by decide)]
  cases hty with
  | inl hA =>
    rw [hA]
    rw [if_neg (by decide), if_neg (by decide), if_neg (by decide),
      if_pos (Or.inl rfl)]
    rw [hplen, if_neg (by omega)]
    have harith : pos + 3 + (file[pos]! + 256 * file[pos + 1]!) -
        (3 + (file[pos]! + 256 * file[pos + 1]!)) = pos := by omega
    rw [harith]
  | inr hL =>
    rw [hL]
    rw [if_neg (by decide), if_neg (by decide), if_neg (by decide),
      if_pos (Or.inr rfl)]
    rw [hplen, if_neg (by omega)]
    have harith : pos + 3 + (file[pos]! + 256 * file[pos + 1]!) -
        (3 + (file[pos]! + 256 * file[pos + 1]!)) = pos := by omega
    rw [harith]

/-- C8 witness: the definitions phase of `exFileGood` stops exactly at the
AddLoggedMessage envelope at position 51 without consuming it. -/
theorem c8_witness :
    _read_file_definitions exFileGood 51 initState = (initState, .ok 51) :=
  c8_thm exFileGood 51 initState (by decide) (Or.inl (by decide)) (by decide)

/-! ### C3 -/

theorem materializeSubs_ok (subs : List (Nat × _MessageAddLogged)) :
    ∀ acc : List DataItem,
    (∀ p ∈ subs, p.2.buffer ≠ [] →
      recordStride p.2.field_data ≠ 0 ∧
      p.2.buffer.length % recordStride p.2.field_data = 0) →
    ∃ dl, materializeSubs subs acc = .ok dl ∧
      (∀ x ∈ acc, x ∈ dl) ∧
      (∀ p ∈ subs, p.2.buffer ≠ [] → dataItemOfSub p.2 ∈ dl) := by
  induction subs with
  | nil =>
    intro acc h
    exact ⟨acc, rfl, fun x hx => hx, by simp⟩
  | cons q rest ih =>
    intro acc h
    obtain ⟨k, m⟩ := q
    by_cases hb : m.buffer.length > 0
    · have hne : m.buffer ≠ [] := by
        intro hx
        rw [hx] at hb
        simp at hb
      have hal := h (k, m) (List.mem_cons_self _ _) hne
      have hdata : _Data_of m = .ok (dataItemOfSub m) := by
        unfold _Data_of
        rw [if_neg hal.1, if_neg (by rw [hal.2]; simp)]
      obtain ⟨dl, hdl, hacc, hrest⟩ := ih (acc ++ [dataItemOfSub m])
        (fun p hp => h p (List.mem_cons_of_mem _ hp))
      refine ⟨dl, ?_, ?_, ?_⟩
      · rw [materializeSubs, if_pos hb, hdata]
        exact hdl
      · intro x hx
        exact hacc x (by simp [hx])
      · intro p hp hbuf
        rcases List.mem_cons.mp hp with heq | hmem2
        · subst heq
          exact hacc _ (by simp)
        · exact hrest p hmem2 hbuf
    · obtain ⟨dl, hdl, hacc, hrest⟩ := ih acc
        (fun p hp => h p (List.mem_cons_of_mem _ hp))
      refine ⟨dl, ?_, hacc, ?_⟩
      · rw [materializeSubs, if_neg hb]
        exact hdl
      · intro p hp hbuf
        rcases List.mem_cons.mp hp with heq | hmem2
        · subst heq
          exact absurd (by simpa using hbuf) (by simpa using hb)
        · exact hrest p hmem2 hbuf

/-- C3 counterexample: `exFileC3` is truncated mid-record (its final
envelope claims 65535 payload bytes when none remain); its single
subscription has a non-empty 34-byte buffer, yet the parse does not
return a result with that topic materialized — `np.frombuffer` rejects
the buffer, whose length is not a multiple of the 12-byte stride, and the
`ValueError` escapes the parse. -/
theorem c3_cex :
    _load_file exFileC3 none = .error (.py .valueErr) := by
  rfl

/-- C3 (amended): a stream truncated mid-record terminates the data-phase
message loop normally (no exception), and every subscription with a
non-empty accumulated buffer is still materialized into the result
provided each such buffer's length is a positive multiple of its record
stride; with a buffer violating that, the materialization step itself
raises `ValueError` and no result is produced. -/
theorem c3_thm (flt : Option (List String)) (stream : List Nat)
    (st : ULogState) (h3 : 3 ≤ stream.length)
    (htr : stream.length - 3 < stream[0]! + 256 * stream[1]!) :
    _read_file_data_loop flt stream st = (st, none) ∧
    ((∀ p ∈ st.subscriptions, p.2.buffer ≠ [] →
        recordStride p.2.field_data ≠ 0 ∧
        p.2.buffer.length % recordStride p.2.field_data = 0) →
      ∃ st', _read_file_data flt stream st = .ok st' ∧
        ∀ p ∈ st.subscriptions, p.2.buffer ≠ [] →
          dataItemOfSub p.2 ∈ st'.data_list) := by
  have hloop : _read_file_data_loop flt stream st = (st, none) := by
    unfold _read_file_data_loop
    rw [_read_file_data_go]
    dsimp only
    rw [if_neg (by omega), if_pos]
    simp only [List.length_take, List.length_drop]
    omega
  refine ⟨hloop, fun haligned => ?_⟩
  obtain ⟨dl, hdl, hacc, hmem⟩ := materializeSubs_ok st.subscriptions.reverse
    st.data_list
    (fun p hp => haligned p (List.mem_reverse.mp hp))
  refine ⟨{ st with data_list := dl, subscriptions := [] }, ?_, ?_⟩
  · unfold _read_file_data
    rw [show _read_file_data_loop flt stream st =
        _read_file_data_go flt (stream.length + 1) stream st from rfl] at hloop
    rw [show _read_file_data_loop flt stream st =
        _read_file_data_go flt (stream.length + 1) stream st from rfl, hloop]
    dsimp only
    unfold _materialize
    rw [hdl]
  · intro p hp hbuf
    exact hmem p (List.mem_reverse.mpr hp) hbuf

/-- C3 witness: the truncated envelope `[255, 255, 68]` against a state
holding one aligned subscription terminates the loop normally, with the
hypotheses of the theorem checked concretely. -/
theorem c3_witness :
    3 ≤ ([255, 255, 68] : List Nat).length ∧
    ([255, 255, 68] : List Nat).length - 3 <
      ([255, 255, 68] : List Nat)[0]! + 256 * ([255, 255, 68] : List Nat)[1]! ∧
    _read_file_data_loop none [255, 255, 68] exStC10 = (exStC10, none) :=
  ⟨by decide, by decide,
   (c3_thm none [255, 255, 68] exStC10 (by decide) (by decide)).1⟩

/-! ### C10 -/

theorem dictInsert_mem {β : Type} (l : List (Nat × β)) (k : Nat) (v v₀ : β)
    (h : l.lookup k = some v₀) : (k, v) ∈ dictInsert l k v := by
  unfold dictInsert
  rw [if_pos (by rw [h]; rfl)]
  have hm := lookup_mem l k v₀ h
  exact List.mem_map.mpr ⟨(k, v₀), hm, by simp⟩

/-- C10 counterexample: in `exFileC10` a subscribed data record with a
5-byte payload (fewer than `timestamp_offset + 10 = 10`) appends its 3
record bytes and then fails the timestamp unpack; the `struct.error` is
swallowed and the remaining data phase is skipped, but the affected
buffer now has 27 bytes — not a multiple of the 12-byte stride — so the
materialization raises `ValueError` out of the parse instead of
producing the claimed `DecodedTopic`s. -/
theorem c10_cex :
    _load_file exFileC10 none = .error (.py .valueErr) := by
  rfl

/-- C10 (amended): for a subscribed data record whose payload is shorter
than `timestamp_offset + 10`, the record's bytes past the id are appended
to the subscription's buffer before the 8-byte timestamp unpack raises
`struct.error`; the exception is swallowed, terminating the entire
remaining data phase (any following bytes are ignored), and
materialization then runs on the buffers as they stand — producing the
affected topic only if every non-empty buffer, including the one holding
the short record's bytes, is still a positive multiple of its stride. -/
theorem c10_thm (flt : Option (List String)) (data rest : List Nat)
    (st : ULogState) (sub : _MessageAddLogged)
    (hsz : data.length < 65536) (h2 : 2 ≤ data.length)
    (hsub : dictGet st.subscriptions (data[0]! + 256 * data[1]!) = some sub)
    (hshort : data.length < sub.timestamp_offset + 10) :
    _MessageData_init data st =
      ({ st with subscriptions := subsAfterShort st data sub },
       .error .structErr) ∧
    _read_file_data flt (dataEnvStream data rest) st =
      _materialize { st with subscriptions := subsAfterShort st data sub } ∧
    ((∀ p ∈ subsAfterShort st data sub,
        p.2.buffer ≠ [] → recordStride p.2.field_data ≠ 0 ∧
          p.2.buffer.length % recordStride p.2.field_data = 0) →
      ∃ st', _read_file_data flt (dataEnvStream data rest) st = .ok st' ∧
        (sub.buffer ++ data.drop 2 ≠ [] →
          dataItemOfSub { sub with buffer := sub.buffer ++ data.drop 2 } ∈
            st'.data_list)) := by
  have hinit : _MessageData_init data st =
      ({ st with subscriptions := subsAfterShort st data sub },
       .error .structErr) := by
    unfold _MessageData_init subsAfterShort
    rw [if_neg (by omega)]
    dsimp only
    rw [hsub]
    dsimp only
    rw [if_pos]
    simp only [List.length_take, List.length_drop]
    omega
  have hstep : handleMsg flt MSG_TYPE_DATA data st =
      ({ st with subscriptions := subsAfterShort st data sub },
       some .structErr) := by
    unfold handleMsg
    rw [if_neg (by decide), if_neg (by decide), if_neg (by decide),
      if_pos rfl]
    dsimp only
    rw [hinit]
  have hms : (dataEnvStream data rest)[0]! +
      256 * (dataEnvStream data rest)[1]! = data.length :=
    Nat.mod_add_div data.length 256
  have hloop : _read_file_data_loop flt (dataEnvStream data rest) st =
      ({ st with subscriptions := subsAfterShort st data sub },
       some .structErr) := by
    unfold _read_file_data_loop
    rw [_read_file_data_go]
    dsimp only
    rw [hms]
    rw [if_neg (by simp [dataEnvStream])]
    rw [show List.drop 3 (dataEnvStream data rest) = data ++ rest from rfl]
    rw [List.take_left]
    rw [if_neg (by omega)]
    have ht2 : (dataEnvStream data rest)[2]! = MSG_TYPE_DATA := by
      have hb : 2 < (dataEnvStream data rest).length := by
        simp [dataEnvStream]
      rw [getElem!_pos (dataEnvStream data rest) 2 hb]
      simp [dataEnvStream]
    rw [ht2, hstep]
  refine ⟨hinit, ?_, ?_⟩
  · unfold _read_file_data
    rw [hloop]
  · intro haligned
    obtain ⟨dl, hdl, hacc, hmem⟩ := materializeSubs_ok
      (subsAfterShort st data sub).reverse st.data_list
      (fun p hp => haligned p (List.mem_reverse.mp hp))
    refine ⟨{ st with subscriptions := [], data_list := dl }, ?_, ?_⟩
    · unfold _read_file_data
      rw [hloop]
      unfold _materialize
      dsimp only
      rw [hdl]
    · intro hne
      have hmemins : ((data[0]! + 256 * data[1]!),
          { sub with buffer := sub.buffer ++ data.drop 2 }) ∈
          subsAfterShort st data sub :=
        dictInsert_mem _ _ _ sub hsub
      exact hmem _ (List.mem_reverse.mpr hmemins) hne

/-- C10 witness: the amended statement evaluated on a concrete 5-byte
record for subscription 0 of `exStC10` — the 3 record bytes are appended,
the timestamp unpack fails, and the whole remaining stream `[1, 2, 3]` is
ignored. -/
theorem c10_witness :
    _MessageData_init exDataShort exStC10 = (exStC10', .error .structErr) ∧
    _read_file_data none (dataEnvStream exDataShort [1, 2, 3]) exStC10 =
      _materialize exStC10' := by
  have h := c10_thm none exDataShort [1, 2, 3] exStC10 exSub10 (by decide)
    (by decide) (by decide) (by decide)
  exact ⟨h.1, h.2.1⟩

end PyUlog
